import Mathlib

/-!
# Service registry (`registry/main.go`): store, scheduler and probe

A shallow embedding of the registry program: the three HTTP handlers
(`registerServiceHandler`, `getServiceHandler`, `getConfigHandler`), the two
helpers they call (`registerService`, `scheduleHealthCheck`) and the cron job
body (`monitorService`).

The process-wide variables `rdb`, `configData` and `c` of the Go program are the
fields of `World`, which every operation receives and returns.  What the program
obtains from outside itself is an explicit argument of the operation that
obtains it: whether the Redis command of the call reaches the server, the
result of decoding the request body, the result of the outbound `http.Get`.
-/

namespace Registry

/-! ## Data model (`type Service`, `type HealthCheck`, `type Config`, `type ServiceInfo`) -/

/-- `type HealthCheck struct`: the three strings of a health-check description. -/
structure HealthCheck where
  Endpoint : String
  Interval : String
  Timeout : String
deriving DecidableEq

/-- `type Service struct`: one service record. -/
structure Service where
  ID : String
  Name : String
  Address : String
  Port : Int
  HealthCheck : HealthCheck
deriving DecidableEq

/-- `type ServiceInfo struct`: one entry of the static configuration. -/
structure ServiceInfo where
  Host : String
  Port : Int
  User : String
  Password : String
  DBName : String
deriving DecidableEq

/-- `type Config struct`: the Go map `ExternalServices`, as an association list
read with `List.lookup`. -/
structure Config where
  ExternalServices : List (String × ServiceInfo)
deriving DecidableEq

/-! ## `encoding/json`: the text `json.Marshal` writes for these structs -/

/-- Lower-case hexadecimal digit of a number below 16. -/
def hexDigit (n : Nat) : Char :=
  if n < 10 then Char.ofNat (48 + n) else Char.ofNat (87 + n)

/-- Value of a hexadecimal digit, either case. -/
def hexVal (c : Char) : Option Nat :=
  if 48 ≤ c.toNat ∧ c.toNat ≤ 57 then some (c.toNat - 48)
  else if 97 ≤ c.toNat ∧ c.toNat ≤ 102 then some (c.toNat - 87)
  else if 65 ≤ c.toNat ∧ c.toNat ≤ 70 then some (c.toNat - 55)
  else none

/-- The `\uXXXX` escape of a code point below 65536. -/
def uEscape (n : Nat) : List Char :=
  ['\\', 'u', hexDigit (n / 4096), hexDigit (n / 256 % 16), hexDigit (n / 16 % 16),
    hexDigit (n % 16)]

/-- How `json.Marshal` writes one character of a string: quote and backslash
get a backslash; backspace, form feed, newline, carriage return and tab their
short escape; the other control characters, the HTML characters `<`, `>`, `&`
and the line separators U+2028 and U+2029 a `\uXXXX` escape; every other
character itself. -/
def escapeChar (c : Char) : List Char :=
  if c = '"' then ['\\', '"']
  else if c = '\\' then ['\\', '\\']
  else if c = '\x08' then ['\\', 'b']
  else if c = '\x0c' then ['\\', 'f']
  else if c = '\n' then ['\\', 'n']
  else if c = '\r' then ['\\', 'r']
  else if c = '\t' then ['\\', 't']
  else if c.toNat < 32 then uEscape c.toNat
  else if c = '<' ∨ c = '>' ∨ c = '&' then uEscape c.toNat
  else if c.toNat = 8232 ∨ c.toNat = 8233 then uEscape c.toNat
  else [c]

/-- A JSON string literal: the escaped characters between two quotes. -/
def encodeString (s : String) : List Char :=
  '"' :: (s.data.flatMap escapeChar ++ ['"'])

/-- Character of a decimal digit. -/
def digitChar (d : Nat) : Char := Char.ofNat (48 + d)

/-- Decimal digits of a natural number, most significant first; `fuel` bounds
the number of digits. -/
def natDigits : Nat → Nat → List Char
  | 0, _ => []
  | fuel + 1, n =>
    if n < 10 then [digitChar n] else natDigits fuel (n / 10) ++ [digitChar (n % 10)]

/-- Decimal text of an integer, as `strconv.Itoa` and the JSON encoder write it. -/
def itoa (i : Int) : List Char :=
  if i < 0 then '-' :: natDigits (i.natAbs + 1) i.natAbs else natDigits (i.natAbs + 1) i.natAbs

/-- Text of `json.Marshal(healthCheck)`. -/
def encodeHealthCheck (h : HealthCheck) : List Char :=
  "\x7b\"endpoint\":".data ++ encodeString h.Endpoint ++ ",\"interval\":".data ++
    encodeString h.Interval ++ ",\"timeout\":".data ++ encodeString h.Timeout ++ ['\x7d']

/-- Text of `json.Marshal(service)`: the members in declaration order under
their `json` tags, without white space. -/
def encodeService (s : Service) : List Char :=
  "\x7b\"id\":".data ++ encodeString s.ID ++ ",\"name\":".data ++ encodeString s.Name ++
    ",\"address\":".data ++ encodeString s.Address ++ ",\"port\":".data ++ itoa s.Port ++
    ",\"healthCheck\":".data ++ encodeHealthCheck s.HealthCheck ++ ['\x7d']

/-- The bytes of `json.Marshal(service)`.  The call cannot fail on this struct
(strings and an integer only), so the error branch after it in
`registerService` is never taken. -/
def jsonMarshal (s : Service) : String := String.mk (encodeService s)

/-- A member with the `omitempty` option: left out when the string is empty. -/
def encodeOmitEmpty (key : String) (v : String) : List Char :=
  if v = "" then [] else ",\"".data ++ key.data ++ "\":".data ++ encodeString v

/-- The bytes of `json.Marshal(serviceInfo)`. -/
def jsonMarshalInfo (i : ServiceInfo) : String :=
  String.mk ("\x7b\"host\":".data ++ encodeString i.Host ++ ",\"port\":".data ++ itoa i.Port ++
    encodeOmitEmpty "user" i.User ++ encodeOmitEmpty "password" i.Password ++
    encodeOmitEmpty "dbname" i.DBName ++ ['\x7d'])

/-! ### Reading the text back -/

/-- Character of a one-letter escape. -/
def unescapeSimple (e : Char) : Option Char :=
  if e = '"' then some '"'
  else if e = '\\' then some '\\'
  else if e = '/' then some '/'
  else if e = 'b' then some '\x08'
  else if e = 'f' then some '\x0c'
  else if e = 'n' then some '\n'
  else if e = 'r' then some '\r'
  else if e = 't' then some '\t'
  else none

/-- Code point of four hexadecimal digits. -/
def hex4 (a b c d : Char) : Option Nat :=
  match hexVal a, hexVal b, hexVal c, hexVal d with
  | some w, some x, some y, some z => some (w * 4096 + x * 256 + y * 16 + z)
  | _, _, _, _ => none

/-- Reads the characters of a string literal after its opening quote, up to and
including the closing quote: the string and the rest of the input. -/
def decodeChars : List Char → Option (List Char × List Char)
  | [] => none
  | c :: rest =>
    if c = '"' then some ([], rest)
    else if c = '\\' then
      match rest with
      | [] => none
      | e :: rest1 =>
        if e = 'u' then
          match rest1 with
          | h1 :: h2 :: h3 :: h4 :: rest2 =>
            match hex4 h1 h2 h3 h4, decodeChars rest2 with
            | some n, some (s, r) => some (Char.ofNat n :: s, r)
            | _, _ => none
          | _ => none
        else
          match unescapeSimple e, decodeChars rest1 with
          | some d, some (s, r) => some (d :: s, r)
          | _, _ => none
    else if c.toNat < 32 then none
    else
      match decodeChars rest with
      | some (s, r) => some (c :: s, r)
      | none => none

/-- Reads a string literal. -/
def decodeString : List Char → Option (String × List Char)
  | '"' :: rest =>
    match decodeChars rest with
    | some (s, r) => some (String.mk s, r)
    | none => none
  | _ => none

/-- Strips a fixed text from the front of the input. -/
def expect : List Char → List Char → Option (List Char)
  | [], inp => some inp
  | _ :: _, [] => none
  | l :: lit, c :: inp => if l = c then expect lit inp else none

/-- Reads decimal digits into an accumulator. -/
def decodeDigits : List Char → Nat → Nat × List Char
  | [], acc => (acc, [])
  | c :: rest, acc =>
    if 48 ≤ c.toNat ∧ c.toNat ≤ 57 then decodeDigits rest (10 * acc + (c.toNat - 48))
    else (acc, c :: rest)

/-- Reads an integer: an optional minus sign and at least one digit. -/
def decodeInt : List Char → Option (Int × List Char)
  | [] => none
  | c :: rest =>
    if c = '-' then
      match rest with
      | [] => none
      | d :: _ =>
        if 48 ≤ d.toNat ∧ d.toNat ≤ 57 then
          some (-((decodeDigits rest 0).1 : Int), (decodeDigits rest 0).2)
        else none
    else if 48 ≤ c.toNat ∧ c.toNat ≤ 57 then
      some (((decodeDigits (c :: rest) 0).1 : Int), (decodeDigits (c :: rest) 0).2)
    else none

/-- Reads a string member: its key text, then a string literal. -/
def decodeMember (key : String) (inp : List Char) : Option (String × List Char) :=
  match expect key.data inp with
  | some r => decodeString r
  | none => none

/-- Reads an integer member: its key text, then an integer. -/
def decodeIntMember (key : String) (inp : List Char) : Option (Int × List Char) :=
  match expect key.data inp with
  | some r => decodeInt r
  | none => none

/-- Reads back the text of `json.Marshal(healthCheck)` at the end of the service
object. -/
def decodeHealthCheck (inp : List Char) : Option HealthCheck :=
  match decodeMember "\x7b\"endpoint\":" inp with
  | none => none
  | some (endpoint, r) =>
    match decodeMember ",\"interval\":" r with
    | none => none
    | some (interval, r) =>
      match decodeMember ",\"timeout\":" r with
      | none => none
      | some (timeout, r) =>
        if r = ['\x7d', '\x7d'] then
          some { Endpoint := endpoint, Interval := interval, Timeout := timeout }
        else none

/-- Reads back the text of `json.Marshal(service)`. -/
def decodeService (inp : List Char) : Option Service :=
  match decodeMember "\x7b\"id\":" inp with
  | none => none
  | some (id, r) =>
    match decodeMember ",\"name\":" r with
    | none => none
    | some (name, r) =>
      match decodeMember ",\"address\":" r with
      | none => none
      | some (address, r) =>
        match decodeIntMember ",\"port\":" r with
        | none => none
        | some (port, r) =>
          match expect ",\"healthCheck\":".data r with
          | none => none
          | some r =>
            match decodeHealthCheck r with
            | none => none
            | some h =>
              some { ID := id, Name := name, Address := address, Port := port, HealthCheck := h }

/-- Decodes a lookup body into a service record: accepts the object with
exactly the members id, name, address, port and healthCheck that
`json.Marshal(service)` writes, and nothing after it. -/
def jsonUnmarshal (body : String) : Option Service := decodeService body.data

/-- A decimal digit character. -/
def isDigit (c : Char) : Prop := 48 ≤ c.toNat ∧ c.toNat ≤ 57

/-! ## `time.ParseDuration` and the cron schedule -/

/-- Nanoseconds of `time.Second`. -/
def Second : Int := 1000000000

/-- The table `unitMap` of package `time`: nanoseconds per unit. -/
def unitMap (u : List Char) : Option Nat :=
  if u = ['n', 's'] then some 1
  else if u = ['u', 's'] then some 1000
  else if u = [Char.ofNat 181, 's'] then some 1000
  else if u = [Char.ofNat 956, 's'] then some 1000
  else if u = ['m', 's'] then some 1000000
  else if u = ['s'] then some 1000000000
  else if u = ['m'] then some 60000000000
  else if u = ['h'] then some 3600000000000
  else none

/-- `leadingInt` of package `time`: the leading decimal digits as a number and
the rest; `none` when the number exceeds `1 << 63`. -/
def leadingInt : List Char → Nat → Option (Nat × List Char)
  | [], x => some (x, [])
  | c :: rest, x =>
    if c.toNat < 48 ∨ 57 < c.toNat then some (x, c :: rest)
    else if x > 2 ^ 63 / 10 then none
    else if x * 10 + (c.toNat - 48) > 2 ^ 63 then none
    else leadingInt rest (x * 10 + (c.toNat - 48))

/-- `leadingFraction` of package `time`: the leading digits as a number with
its scale (a power of ten) and the rest; digits past the overflow point are
consumed and dropped. -/
def leadingFraction : List Char → Nat → Nat → Bool → Nat × Nat × List Char
  | [], x, scale, _ => (x, scale, [])
  | c :: rest, x, scale, overflow =>
    if c.toNat < 48 ∨ 57 < c.toNat then (x, scale, c :: rest)
    else if overflow then leadingFraction rest x scale true
    else if x > (2 ^ 63 - 1) / 10 then leadingFraction rest x scale true
    else if x * 10 + (c.toNat - 48) > 2 ^ 63 then leadingFraction rest x scale true
    else leadingFraction rest (x * 10 + (c.toNat - 48)) (scale * 10) false

/-- Whether a character ends a unit name: a period or a digit. -/
def endsUnit (c : Char) : Bool := c = '.' ∨ (48 ≤ c.toNat ∧ c.toNat ≤ 57)

/-- The part `(\.[0-9]*)?` of a group: the fraction digits `f`, their `scale`,
the rest of the input, and whether a digit was consumed after the period. -/
def fractionPart (s1 : List Char) : Nat × Nat × List Char × Bool :=
  match s1 with
  | p :: s1t =>
    if p = '.' then
      ((leadingFraction s1t 0 1 false).1, (leadingFraction s1t 0 1 false).2.1,
        (leadingFraction s1t 0 1 false).2.2,
        decide (s1t.length ≠ (leadingFraction s1t 0 1 false).2.2.length))
    else (0, 1, s1, false)
  | [] => (0, 1, s1, false)

/-- The ratio `(p / q) / 2 ^ e` as a pair of numerator and denominator. -/
def scaleRatio (p q : Nat) (e : Int) : Nat × Nat :=
  if e ≥ 0 then (p, q * 2 ^ e.toNat) else (p * 2 ^ (-e).toNat, q)

/-- The integer nearest to `p / q`, a tie going to the even one. -/
def roundHalfEven (p q : Nat) : Nat :=
  if 2 * (p % q) > q ∨ (2 * (p % q) = q ∧ (p / q) % 2 = 1) then p / q + 1 else p / q

/-- The `float64` nearest to the positive ratio `p / q` (IEEE 754 binary64,
round to nearest, ties to even), as a pair of numerator and denominator: the
53-bit significand `m` times `2 ^ e`.  The values met in `time.ParseDuration`
are far from the subnormal and the overflow range. -/
def roundF64 (p q : Nat) : Nat × Nat :=
  if p = 0 then (0, 1)
  else
    let t : Int := (Nat.log2 p : Int) - (Nat.log2 q : Int)
    let lg : Int := if (scaleRatio p q t).1 ≥ (scaleRatio p q t).2 then t else t - 1
    let e : Int := lg - 52
    let m := roundHalfEven (scaleRatio p q e).1 (scaleRatio p q e).2
    if e ≥ 0 then (m * 2 ^ e.toNat, 1) else (m, 2 ^ (-e).toNat)

/-- The term a fraction adds: `uint64(float64(f) * (float64(unit) / scale))`.
`unit` and `scale` (a power of ten up to `1e19`) are exact as `float64`; the
conversion of `f`, the quotient and the product are each rounded to `float64`,
and the conversion to `uint64` drops the fraction. -/
def fractionNanos (f unit scale : Nat) : Nat :=
  let a := roundF64 f 1
  let b := roundF64 unit scale
  let c := roundF64 (a.1 * b.1) (a.2 * b.2)
  c.1 / c.2

/-- The end of a round, once the numbers `v` and `f / scale` have been read:
the unit name, the overflow checks, the nanoseconds of the group and the rest
of the input. -/
def unitPart (v f scale : Nat) (s2 : List Char) : Option (Nat × List Char) :=
  if s2.takeWhile (fun x => !endsUnit x) = [] then none
  else
    match unitMap (s2.takeWhile (fun x => !endsUnit x)) with
    | none => none
    | some unit =>
      if v > 2 ^ 63 / unit then none
      else if f > 0 ∧ v * unit + fractionNanos f unit scale > 2 ^ 63 then none
      else
        some (if f > 0 then v * unit + fractionNanos f unit scale else v * unit,
          s2.dropWhile (fun x => !endsUnit x))

/-- One round of the loop of `time.ParseDuration`: reads one group
`[0-9]*(\.[0-9]*)?[a-z]+` and gives its nanoseconds and the rest of the input,
`none` where the Go code returns an error. -/
def parseGroup (s : List Char) : Option (Nat × List Char) :=
  match s with
  | [] => none
  | c :: _ =>
    if !endsUnit c then none
    else
      match leadingInt s 0 with
      | none => none
      | some (v, s1) =>
        if !decide (s.length ≠ s1.length) && !(fractionPart s1).2.2.2 then none
        else unitPart v (fractionPart s1).1 (fractionPart s1).2.1 (fractionPart s1).2.2.1

/-- The loop of `time.ParseDuration`, summing the groups in the `uint64`
variable `d` (`d += v` wraps modulo `2 ^ 64`, then `d > 1 << 63` is an error);
every round consumes input, `fuel` counts the rounds. -/
def parseGroups : Nat → List Char → Nat → Option Nat
  | _, [], d => some d
  | 0, _ :: _, _ => none
  | fuel + 1, c :: s, d =>
    match parseGroup (c :: s) with
    | none => none
    | some (v, rest) =>
      if (d + v) % 2 ^ 64 > 2 ^ 63 then none else parseGroups fuel rest ((d + v) % 2 ^ 64)

/-- `time.ParseDuration` after the optional sign has been consumed. -/
def parseUnsigned (neg : Bool) (s : List Char) : Option Int :=
  if s = ['0'] then some 0
  else if s = [] then none
  else
    match parseGroups s.length s 0 with
    | none => none
    | some d =>
      if neg then some (-(d : Int))
      else if d > 2 ^ 63 - 1 then none
      else some (d : Int)

/-- `time.ParseDuration`: the duration in nanoseconds, `none` where the Go
function returns an error. -/
def parseDuration (s : String) : Option Int :=
  match s.data with
  | [] => none
  | c :: rest =>
    if c = '-' then parseUnsigned true rest
    else if c = '+' then parseUnsigned false rest
    else parseUnsigned false (c :: rest)

/-- `cron.Every`: the delay of an `@every` schedule, at least one second and
truncated to whole seconds. -/
def Every (duration : Int) : Int :=
  let d := if duration < Second then Second else duration
  d - d % Second

/-- An entry of the cron scheduler `c`: its constant-delay schedule and the
service its job closure captured. -/
structure Entry where
  Delay : Int
  Job : Service
deriving DecidableEq

/-! ## The Redis server behind `rdb` -/

/-- A value held under a Redis key: a string, or a hash of fields. -/
inductive RedisValue where
  | str (data : String)
  | hash (fields : List (String × String))
deriving DecidableEq

/-- Error of a Redis command: `redis.Nil` (no such key), the server's
`WRONGTYPE` reply, or a failure to reach the server. -/
inductive RedisErr where
  | Nil
  | WrongType
  | Unavailable
deriving DecidableEq

/-- The keyspace of the server. -/
abbrev Keyspace := String → Option RedisValue

/-- Sets one field of a hash: replaces the field in place or appends it. -/
def hashSet (fields : List (String × String)) (field value : String) : List (String × String) :=
  if (fields.lookup field).isSome then
    fields.map (fun p => if p.1 = field then (field, value) else p)
  else fields ++ [(field, value)]

/-- `rdb.Set(ctx, key, value, 0).Err()`: `SET` replaces whatever the key held,
of any type.  A command that does not reach the server (`up = false`) returns
an error and changes nothing. -/
def rdbSet (db : Keyspace) (up : Bool) (key value : String) : Option RedisErr × Keyspace :=
  if up then (none, fun k => if k = key then some (RedisValue.str value) else db k)
  else (some RedisErr.Unavailable, db)

/-- `rdb.Get(ctx, key).Result()`: `GET` answers the string under the key,
`redis.Nil` for a key that does not exist and `WRONGTYPE` for a key that holds
a hash. -/
def rdbGet (db : Keyspace) (up : Bool) (key : String) : Except RedisErr String :=
  if up then
    match db key with
    | none => Except.error RedisErr.Nil
    | some (RedisValue.str data) => Except.ok data
    | some (RedisValue.hash _) => Except.error RedisErr.WrongType
  else Except.error RedisErr.Unavailable

/-- `rdb.HSet(ctx, key, field, value).Err()`: `HSET` creates the hash when the
key does not exist, sets the field when the key holds a hash, and answers
`WRONGTYPE`, changing nothing, when the key holds a string. -/
def rdbHSet (db : Keyspace) (up : Bool) (key field value : String) :
    Option RedisErr × Keyspace :=
  if up then
    match db key with
    | none => (none, fun k => if k = key then some (RedisValue.hash [(field, value)]) else db k)
    | some (RedisValue.hash fs) =>
      (none, fun k => if k = key then some (RedisValue.hash (hashSet fs field value)) else db k)
    | some (RedisValue.str _) => (some RedisErr.WrongType, db)
  else (some RedisErr.Unavailable, db)

/-! ## Process state and HTTP values -/

/-- The package-level variables of `registry/main.go`: the store behind the
client `rdb`, the loaded `configData`, and the entries of the scheduler `c`. -/
structure World where
  rdb : Keyspace
  configData : Config
  c : List Entry

/-- How a call ends: it returns, or the process is terminated inside it. -/
inductive Outcome (α : Type) where
  | ok (a : α) (w : World)
  | fatal (w : World)

/-- The state a call leaves behind. -/
def Outcome.world {α : Type} : Outcome α → World
  | Outcome.ok _ w => w
  | Outcome.fatal w => w

/-- The value a call returned, if it returned. -/
def Outcome.value {α : Type} : Outcome α → Option α
  | Outcome.ok a _ => some a
  | Outcome.fatal _ => none

/-- Modelled from the spec: `common.Fatal`, of package `common`, which is not
among the sources.  The spec has the failures that `main` passes to it "abort
the process" ("fatal at startup"): the call logs its message and ends the
process, so nothing after it runs.  The store is a separate server and keeps
what was written before. -/
def Fatal {α : Type} (w : World) : Outcome α := Outcome.fatal w

/-- What a handler wrote to its `http.ResponseWriter`. -/
structure Response where
  StatusCode : Nat
  ContentType : Option String
  Body : String
deriving DecidableEq

/-- The parts of `*http.Request` the handlers read.  `Body` is the result of
`json.NewDecoder(r.Body).Decode(&service)`: the decoded record, or `none` when
decoding returns an error.  The decoder leaves a member that is missing from
the body at its zero value (`""`, `0`). -/
structure Request where
  Method : String
  Path : String
  Body : Option Service
deriving DecidableEq

/-- `http.Error(w, msg, code)`: plain text, the message and a newline. -/
def httpError (msg : String) (code : Nat) : Response :=
  { StatusCode := code, ContentType := some "text/plain; charset=utf-8", Body := msg ++ "\n" }

/-- The request an outbound call makes: its URL and the `Timeout` of the
`http.Client` that sends it, in nanoseconds, zero meaning no timeout. -/
structure ProbeRequest where
  URL : String
  Timeout : Int
deriving DecidableEq

/-- `http.Get(url)`: sent by `http.DefaultClient`, whose `Timeout` is zero. -/
def httpGet (url : String) : ProbeRequest := { URL := url, Timeout := 0 }

/-- Result of `http.Get`: an error (transport failure, timeout) without a
usable response, or a response with its status code. -/
inductive GetResult where
  | failed (err : String)
  | response (StatusCode : Int)
deriving DecidableEq

/-! ## The functions of `registry/main.go` -/

/-- `registerService`: serialises the record and writes it with `SET` under
`"service:" + service.ID`; an error of the write goes to `common.Fatal`. -/
def registerService (w : World) (up : Bool) (service : Service) : Outcome Unit :=
  let serviceData := jsonMarshal service
  match rdbSet w.rdb up ("service:" ++ service.ID) serviceData with
  | (some _, db) => Fatal { w with rdb := db }
  | (none, db) => Outcome.ok () { w with rdb := db }

/-- `scheduleHealthCheck`: parses the interval, `common.Fatal` on an error,
else `c.AddFunc("@every " + interval.String(), ...)` adds one entry whose job
is `monitorService(service)`.  The text `interval.String()` parses back to
`interval`, so the added schedule is `Every(interval)`; the entry id and error
that `AddFunc` returns are dropped by the caller. -/
def scheduleHealthCheck (w : World) (service : Service) : Outcome Unit :=
  match parseDuration service.HealthCheck.Interval with
  | none => Fatal w
  | some interval => Outcome.ok () { w with c := w.c ++ [{ Delay := Every interval, Job := service }] }

/-- `registerServiceHandler`. -/
def registerServiceHandler (w : World) (up : Bool) (r : Request) : Outcome Response :=
  if r.Method ≠ "POST" then Outcome.ok (httpError "Invalid request method" 405) w
  else
    match r.Body with
    | none => Outcome.ok (httpError "Invalid request body" 400) w
    | some service =>
      match registerService w up service with
      | Outcome.fatal w1 => Outcome.fatal w1
      | Outcome.ok _ w1 =>
        match scheduleHealthCheck w1 service with
        | Outcome.fatal w2 => Outcome.fatal w2
        | Outcome.ok _ w2 => Outcome.ok { StatusCode := 200, ContentType := none, Body := "" } w2

/-- `getServiceHandler`.  The id is `r.URL.Path[len("/service/"):]`; the
handler is mounted on `/service/`, so the path starts with these nine
characters. -/
def getServiceHandler (w : World) (up : Bool) (r : Request) : Outcome Response :=
  let serviceID := String.mk (r.Path.data.drop 9)
  match rdbGet w.rdb up ("service:" ++ serviceID) with
  | Except.error RedisErr.Nil => Outcome.ok (httpError "Service not found" 404) w
  | Except.error _ => Outcome.ok (httpError "Internal server error" 500) w
  | Except.ok serviceData =>
    Outcome.ok { StatusCode := 200, ContentType := some "application/json", Body := serviceData } w

/-- `getConfigHandler`.  `json.Marshal(serviceInfo)` cannot fail on this
struct, so the branch answering 500 is never taken. -/
def getConfigHandler (w : World) (r : Request) : Outcome Response :=
  let configName := String.mk (r.Path.data.drop 8)
  match w.configData.ExternalServices.lookup configName with
  | none => Outcome.ok (httpError "Configuration not found" 404) w
  | some serviceInfo =>
    Outcome.ok { StatusCode := 200, ContentType := some "application/json",
                 Body := jsonMarshalInfo serviceInfo } w

/-- The request `monitorService` sends: `http.Get` of
`"http://" + Address + ":" + strconv.Itoa(Port) + Endpoint`. -/
def probeRequest (service : Service) : ProbeRequest :=
  httpGet ("http://" ++ service.Address ++ ":" ++ String.mk (itoa service.Port) ++
    service.HealthCheck.Endpoint)

/-- The status `monitorService` computes from the result of the request:
`err == nil && resp.StatusCode == http.StatusOK`. -/
def probeStatus (res : GetResult) : String :=
  match res with
  | GetResult.failed _ => "unhealthy"
  | GetResult.response code => if code = 200 then "healthy" else "unhealthy"

/-- `monitorService`: one probe, then `HSET "service:"+ID status <status>`; an
error of the write is logged with `common.Warn` and otherwise dropped.  `net`
answers the outbound request. -/
def monitorService (w : World) (net : ProbeRequest → GetResult) (up : Bool) (service : Service) :
    Outcome Unit :=
  let status := probeStatus (net (probeRequest service))
  Outcome.ok () { w with rdb := (rdbHSet w.rdb up ("service:" ++ service.ID) "status" status).2 }

/-! ## Requests and runs -/

/-- The request `POST /register` whose body decodes to `service`. -/
def postRegister (service : Service) : Request :=
  { Method := "POST", Path := "/register", Body := some service }

/-- The request `GET /service/{id}`. -/
def getService (id : String) : Request :=
  { Method := "GET", Path := "/service/" ++ id, Body := none }

/-- The request `GET /config/{name}`. -/
def getConfig (name : String) : Request :=
  { Method := "GET", Path := "/config/" ++ name, Body := none }

/-- A sequence of `POST /register` requests served one after the other, each
with the reachability of the store at its time. -/
def registerAll : World → List (Bool × Service) → Outcome Unit
  | w, [] => Outcome.ok () w
  | w, (up, service) :: rest =>
    match registerServiceHandler w up (postRegister service) with
    | Outcome.ok _ w1 => registerAll w1 rest
    | Outcome.fatal w1 => Outcome.fatal w1

/-- Number of scheduler entries whose job probes the service `id`. -/
def tasksFor (id : String) (c : List Entry) : Nat :=
  (c.filter (fun e => e.Job.ID = id)).length

/-- The `status` field of the value under a key, as `HGET key status` reads it. -/
def statusOf (v : Option RedisValue) : Option String :=
  match v with
  | some (RedisValue.hash fs) => fs.lookup "status"
  | _ => none

/-- The process right after start: an empty store, no scheduler entry. -/
def startWorld : World :=
  { rdb := fun _ => none,
    configData := { ExternalServices := [("redis", ⟨"127.0.0.1", 6379, "", "", ""⟩)] },
    c := [] }

/-- The record of the spec's scenario. -/
def svc1 : Service :=
  { ID := "svc-1", Name := "svc", Address := "10.0.0.5", Port := 8080,
    HealthCheck := { Endpoint := "/health", Interval := "2s", Timeout := "500ms" } }

/-- The same service registered again with another interval. -/
def svc1b : Service :=
  { svc1 with HealthCheck := { Endpoint := "/health", Interval := "10s", Timeout := "500ms" } }

/-- The world once `registerService` has written `R`: the key of `R` holds the
string `json.Marshal(R)`. -/
def stored (w : World) (R : Service) : World :=
  { w with rdb := fun k =>
      if k = "service:" ++ R.ID then some (RedisValue.str (jsonMarshal R)) else w.rdb k }

/-- The world once `POST /register` of `R` has been served completely: `R` is
stored and one entry with the parsed interval `d` has been added. -/
def registered (w : World) (R : Service) (d : Int) : World :=
  { stored w R with c := w.c ++ [{ Delay := Every d, Job := R }] }

/-- A decoded record without id, address, port and endpoint. -/
def svcEmpty : Service :=
  { ID := "", Name := "", Address := "", Port := 0,
    HealthCheck := { Endpoint := "", Interval := "2s", Timeout := "" } }

/-- The record `svc-1` with an interval that is not a duration. -/
def svcSoon : Service :=
  { svc1 with HealthCheck := { Endpoint := "/health", Interval := "soon", Timeout := "500ms" } }

/-- The record `svc-1` with another timeout. -/
def svc1Slow : Service :=
  { svc1 with HealthCheck := { Endpoint := "/health", Interval := "2s", Timeout := "1h" } }

/-- A store whose key of `svc-1` holds a hash with a probed status. -/
def probedWorld : World :=
  { startWorld with rdb := fun k =>
      if k = "service:svc-1" then some (RedisValue.hash [("status", "healthy")]) else none }

/-- A second service. -/
def svc2 : Service :=
  { ID := "svc-2", Name := "other", Address := "10.0.0.6", Port := 9090,
    HealthCheck := { Endpoint := "/ping", Interval := "5s", Timeout := "1s" } }

/-- A store that holds the records of `svc-2` and of `svc-1`, both scheduled. -/
def busyWorld : World :=
  registered (registered startWorld svc2 5000000000) svc1 2000000000

/-! ## Lemmas on the JSON text -/

theorem hexVal_hexDigit (n : Nat) (h : n < 16) : hexVal (hexDigit n) = some n := by
  interval_cases n <;> decide

theorem hex4_uEscape (n : Nat) (h : n < 65536) :
    hex4 (hexDigit (n / 4096)) (hexDigit (n / 256 % 16)) (hexDigit (n / 16 % 16))
      (hexDigit (n % 16)) = some n := by
  have h1 : n / 4096 < 16 := by omega
  have h2 : n / 256 % 16 < 16 := by omega
  have h3 : n / 16 % 16 < 16 := by omega
  have h4 : n % 16 < 16 := by omega
  simp only [hex4, hexVal_hexDigit _ h1, hexVal_hexDigit _ h2, hexVal_hexDigit _ h3,
    hexVal_hexDigit _ h4]
  congr 1
  omega


theorem decodeChars_cons (c : Char) (rest : List Char) :
    decodeChars (c :: rest) =
      if c = '"' then some ([], rest)
      else if c = '\\' then
        match rest with
        | [] => none
        | e :: rest1 =>
          if e = 'u' then
            match rest1 with
            | h1 :: h2 :: h3 :: h4 :: rest2 =>
              match hex4 h1 h2 h3 h4, decodeChars rest2 with
              | some n, some (s, r) => some (Char.ofNat n :: s, r)
              | _, _ => none
            | _ => none
          else
            match unescapeSimple e, decodeChars rest1 with
            | some d, some (s, r) => some (d :: s, r)
            | _, _ => none
      else if c.toNat < 32 then none
      else
        match decodeChars rest with
        | some (s, r) => some (c :: s, r)
        | none => none := by
  rw [decodeChars.eq_def]

theorem decodeChars_quote (rest : List Char) : decodeChars ('"' :: rest) = some ([], rest) := by
  rw [decodeChars_cons, if_pos rfl]

theorem decodeChars_simple (e d : Char) (h : unescapeSimple e = some d) (hu : e ≠ 'u')
    (rest : List Char) :
    decodeChars ('\\' :: e :: rest) =
      match decodeChars rest with
      | some (s, r) => some (d :: s, r)
      | none => none := by
  rw [decodeChars_cons, if_neg (by decide), if_pos rfl]
  simp only [if_neg hu, h]
  cases decodeChars rest <;> rfl

theorem decodeChars_uEscape (c : Char) (h : c.toNat < 65536) (rest : List Char) :
    decodeChars (uEscape c.toNat ++ rest) =
      match decodeChars rest with
      | some (s, r) => some (c :: s, r)
      | none => none := by
  simp only [uEscape, List.cons_append, List.nil_append]
  rw [decodeChars_cons, if_neg (by decide), if_pos rfl]
  simp only [if_true, hex4_uEscape _ h]
  cases decodeChars rest <;> simp [Char.ofNat_toNat]

theorem decodeChars_escapeChar (c : Char) (rest : List Char) :
    decodeChars (escapeChar c ++ rest) =
      match decodeChars rest with
      | some (s, r) => some (c :: s, r)
      | none => none := by
  unfold escapeChar
  by_cases h1 : c = '"'
  · rw [if_pos h1]; subst h1; exact decodeChars_simple _ _ (by decide) (by decide) rest
  rw [if_neg h1]
  by_cases h2 : c = '\\'
  · rw [if_pos h2]; subst h2; exact decodeChars_simple _ _ (by decide) (by decide) rest
  rw [if_neg h2]
  by_cases hb : c = '\x08'
  · rw [if_pos hb]; subst hb; exact decodeChars_simple _ _ (by decide) (by decide) rest
  rw [if_neg hb]
  by_cases hf : c = '\x0c'
  · rw [if_pos hf]; subst hf; exact decodeChars_simple _ _ (by decide) (by decide) rest
  rw [if_neg hf]
  by_cases h3 : c = '\n'
  · rw [if_pos h3]; subst h3; exact decodeChars_simple _ _ (by decide) (by decide) rest
  rw [if_neg h3]
  by_cases h4 : c = '\r'
  · rw [if_pos h4]; subst h4; exact decodeChars_simple _ _ (by decide) (by decide) rest
  rw [if_neg h4]
  by_cases h5 : c = '\t'
  · rw [if_pos h5]; subst h5; exact decodeChars_simple _ _ (by decide) (by decide) rest
  rw [if_neg h5]
  by_cases h6 : c.toNat < 32
  · rw [if_pos h6]; exact decodeChars_uEscape c (by omega) rest
  rw [if_neg h6]
  by_cases h7 : c = '<' ∨ c = '>' ∨ c = '&'
  · rw [if_pos h7]
    refine decodeChars_uEscape c ?_ rest
    rcases h7 with h | h | h <;> subst h <;> decide
  rw [if_neg h7]
  by_cases h8 : c.toNat = 8232 ∨ c.toNat = 8233
  · rw [if_pos h8]; exact decodeChars_uEscape c (by omega) rest
  rw [if_neg h8, List.singleton_append, decodeChars_cons, if_neg h1, if_neg h2, if_neg h6]

theorem decodeChars_escape (s rest : List Char) :
    decodeChars (s.flatMap escapeChar ++ '"' :: rest) = some (s, rest) := by
  induction s with
  | nil => exact decodeChars_quote rest
  | cons c s ih =>
    rw [List.flatMap_cons, List.append_assoc, decodeChars_escapeChar, ih]

theorem decodeString_encodeString (s : String) (rest : List Char) :
    decodeString (encodeString s ++ rest) = some (s, rest) := by
  simp only [encodeString, List.cons_append, List.append_assoc, List.nil_append, decodeString,
    decodeChars_escape]

theorem expect_append (lit rest : List Char) : expect lit (lit ++ rest) = some rest := by
  induction lit with
  | nil => cases rest <;> rfl
  | cons l lit ih => simp [expect, ih]

theorem decodeMember_encode (key : String) (s : String) (rest : List Char) :
    decodeMember key (key.data ++ (encodeString s ++ rest)) = some (s, rest) := by
  simp only [decodeMember, expect_append, decodeString_encodeString]

theorem digitChar_toNat (d : Nat) (h : d < 10) : (digitChar d).toNat = 48 + d := by
  interval_cases d <;> rfl

theorem isDigit_digitChar (d : Nat) (h : d < 10) : isDigit (digitChar d) := by
  unfold isDigit
  rw [digitChar_toNat d h]
  omega

theorem decodeDigits_append (xs : List Char) (hx : ∀ c ∈ xs, isDigit c) (r : List Char) (a : Nat) :
    decodeDigits (xs ++ r) a =
      decodeDigits r (xs.foldl (fun a c => 10 * a + (c.toNat - 48)) a) := by
  induction xs generalizing a with
  | nil => rfl
  | cons c xs ih =>
    have hc : 48 ≤ c.toNat ∧ c.toNat ≤ 57 := hx c (List.mem_cons_self _ _)
    rw [List.cons_append, decodeDigits, if_pos hc, List.foldl_cons]
    exact ih (fun d hd => hx d (List.mem_cons_of_mem _ hd)) _

theorem natDigits_spec (fuel n : Nat) (h : n < fuel) :
    (∀ c ∈ natDigits fuel n, isDigit c) ∧
      (natDigits fuel n).foldl (fun a c => 10 * a + (c.toNat - 48)) 0 = n ∧
      ∃ d tl, natDigits fuel n = d :: tl := by
  induction fuel generalizing n with
  | zero => omega
  | succ fuel ih =>
    unfold natDigits
    split_ifs with h10
    · refine ⟨?_, ?_, _, _, rfl⟩
      · intro c hc
        rw [List.mem_singleton] at hc
        subst hc
        exact isDigit_digitChar n h10
      · simp [digitChar_toNat n h10]
    · obtain ⟨h1, h2, d, tl, h3⟩ := ih (n / 10) (by omega)
      have hm : n % 10 < 10 := Nat.mod_lt _ (by decide)
      refine ⟨?_, ?_, d, tl ++ [digitChar (n % 10)], by rw [h3]; rfl⟩
      · intro c hc
        rcases List.mem_append.1 hc with hc | hc
        · exact h1 c hc
        · rw [List.mem_singleton] at hc
          subst hc
          exact isDigit_digitChar _ hm
      · rw [List.foldl_append, h2]
        simp only [List.foldl_cons, List.foldl_nil, digitChar_toNat _ hm]
        omega

theorem decodeInt_itoa (i : Int) (rest : List Char)
    (hrest : ∀ a, decodeDigits rest a = (a, rest)) :
    decodeInt (itoa i ++ rest) = some (i, rest) := by
  obtain ⟨h1, h2, d, tl, h3⟩ := natDigits_spec (i.natAbs + 1) i.natAbs (Nat.lt_succ_self _)
  have hd : 48 ≤ d.toNat ∧ d.toNat ≤ 57 := h1 d (by rw [h3]; exact List.mem_cons_self _ _)
  have hdm : d ≠ '-' := by
    intro hh
    subst hh
    revert hd
    decide
  have key : decodeDigits (natDigits (i.natAbs + 1) i.natAbs ++ rest) 0 = (i.natAbs, rest) := by
    rw [decodeDigits_append _ h1, h2, hrest]
  unfold itoa
  split_ifs with hneg
  · rw [h3] at key ⊢
    simp only [List.cons_append, decodeInt, if_true, if_pos hd]
    simp only [List.cons_append] at key
    rw [key]
    simp only [Option.some.injEq, Prod.mk.injEq, and_true]
    omega
  · rw [h3] at key ⊢
    simp only [List.cons_append, decodeInt, if_neg hdm, if_pos hd]
    simp only [List.cons_append] at key
    rw [key]
    simp only [Option.some.injEq, Prod.mk.injEq, and_true]
    omega

theorem decodeIntMember_encode (key : String) (i : Int) (c : Char) (lit rest : List Char)
    (hc : ¬(48 ≤ c.toNat ∧ c.toNat ≤ 57)) :
    decodeIntMember key (key.data ++ (itoa i ++ ((c :: lit) ++ rest))) =
      some (i, (c :: lit) ++ rest) := by
  simp only [decodeIntMember, expect_append]
  refine decodeInt_itoa i _ (fun a => ?_)
  rw [List.cons_append, decodeDigits, if_neg hc]

theorem decodeService_encodeService (s : Service) :
    decodeService (encodeService s) = some s := by
  unfold encodeService encodeHealthCheck decodeService
  simp only [List.append_assoc]
  rw [decodeMember_encode]
  simp only
  rw [decodeMember_encode]
  simp only
  rw [decodeMember_encode]
  simp only
  rw [decodeIntMember_encode _ _ _ _ _ (by decide)]
  simp only
  rw [expect_append]
  simp only [decodeHealthCheck]
  rw [decodeMember_encode]
  simp only
  rw [decodeMember_encode]
  simp only
  rw [decodeMember_encode]
  simp

/-- The text of `json.Marshal(service)` reads back as the same record. -/
theorem jsonUnmarshal_jsonMarshal (s : Service) : jsonUnmarshal (jsonMarshal s) = some s :=
  decodeService_encodeService s

/-! ## Lemmas on `time.ParseDuration` -/

theorem leadingInt_length (s : List Char) (x v : Nat) (s1 : List Char)
    (h : leadingInt s x = some (v, s1)) : s1.length ≤ s.length := by
  induction s generalizing x with
  | nil =>
    simp only [leadingInt, Option.some.injEq, Prod.mk.injEq] at h
    rw [← h.2]
  | cons c rest ih =>
    unfold leadingInt at h
    split_ifs at h with h1 h2 h3
    · simp only [Option.some.injEq, Prod.mk.injEq] at h
      rw [← h.2]
    · have := ih _ h
      simp only [List.length_cons]
      omega

theorem leadingFraction_length (s : List Char) (x scale : Nat) (o : Bool) :
    (leadingFraction s x scale o).2.2.length ≤ s.length := by
  induction s generalizing x scale o with
  | nil => simp [leadingFraction]
  | cons c rest ih =>
    unfold leadingFraction
    split_ifs with h1 h2 h3 h4
    · exact Nat.le_refl _
    · exact Nat.le_succ_of_le (ih _ _ _)
    · exact Nat.le_succ_of_le (ih _ _ _)
    · exact Nat.le_succ_of_le (ih _ _ _)
    · exact Nat.le_succ_of_le (ih _ _ _)

theorem dropWhile_length_lt (p : Char → Bool) (l : List Char) (h : l.takeWhile p ≠ []) :
    (l.dropWhile p).length < l.length := by
  have hl : (l.takeWhile p ++ l.dropWhile p).length = l.length := by
    rw [List.takeWhile_append_dropWhile]
  rw [List.length_append] at hl
  have hpos : 0 < (l.takeWhile p).length := List.length_pos.2 h
  omega

theorem fractionPart_length (s1 : List Char) :
    (fractionPart s1).2.2.1.length ≤ s1.length := by
  unfold fractionPart
  cases s1 with
  | nil => simp
  | cons p s1t =>
    simp only
    split_ifs with hp
    · simp only [List.length_cons]
      exact Nat.le_succ_of_le (leadingFraction_length _ _ _ _)
    · exact Nat.le_refl _

theorem unitPart_length (v f scale : Nat) (s2 : List Char) (n : Nat) (rest : List Char)
    (h : unitPart v f scale s2 = some (n, rest)) : rest.length < s2.length := by
  unfold unitPart at h
  by_cases h1 : s2.takeWhile (fun x => !endsUnit x) = []
  · simp [h1] at h
  · rw [if_neg h1] at h
    cases hu : unitMap (s2.takeWhile (fun x => !endsUnit x)) with
    | none => simp [hu] at h
    | some unit =>
      simp only [hu] at h
      split_ifs at h <;>
        (simp only [Option.some.injEq, Prod.mk.injEq] at h
         rw [← h.2]
         exact dropWhile_length_lt _ _ h1)

theorem parseGroup_length (s : List Char) (v : Nat) (rest : List Char)
    (h : parseGroup s = some (v, rest)) : rest.length < s.length := by
  unfold parseGroup at h
  cases s with
  | nil => simp at h
  | cons c t =>
    simp only at h
    split_ifs at h with h0
    cases hl : leadingInt (c :: t) 0 with
    | none => simp [hl] at h
    | some r =>
      obtain ⟨v0, s1⟩ := r
      have hs1 := leadingInt_length _ _ _ _ hl
      simp only [hl] at h
      split_ifs at h with h1
      have h2 := unitPart_length _ _ _ _ _ _ h
      have h3 := fractionPart_length s1
      omega

/-- Fuel beyond the length of the input changes nothing: the loop of
`parseGroups` never stops for lack of fuel when started as in `parseUnsigned`. -/
theorem parseGroups_fuel (fuel : Nat) (s : List Char) (d : Nat) (h : s.length ≤ fuel) :
    parseGroups (fuel + 1) s d = parseGroups fuel s d := by
  induction fuel generalizing s d with
  | zero =>
    cases s with
    | nil => rfl
    | cons c t => simp at h
  | succ n ih =>
    cases s with
    | nil => rfl
    | cons c t =>
      simp only [parseGroups]
      cases hg : parseGroup (c :: t) with
      | none => rfl
      | some r =>
        obtain ⟨v, rest⟩ := r
        have hlen := parseGroup_length _ _ _ hg
        simp only
        split_ifs with hd
        · rfl
        · exact ih rest _ (by simp only [List.length_cons] at hlen h; omega)

/-! ## Lemmas on keys, the store and the handlers -/

theorem serviceKey_inj (x y : String) (h : "service:" ++ x = "service:" ++ y) : x = y := by
  have hd := congrArg String.data h
  rw [String.data_append, String.data_append] at hd
  exact String.ext (List.append_cancel_left hd)

theorem servicePath_id (id : String) : String.mk (("/service/" ++ id).data.drop 9) = id := by
  rw [String.data_append, List.drop_left' (by rfl)]

theorem configPath_name (name : String) : String.mk (("/config/" ++ name).data.drop 8) = name := by
  rw [String.data_append, List.drop_left' (by rfl)]

theorem register_ok (w : World) (R : Service) (d : Int)
    (hd : parseDuration R.HealthCheck.Interval = some d) :
    registerServiceHandler w true (postRegister R) =
      Outcome.ok { StatusCode := 200, ContentType := none, Body := "" } (registered w R d) := by
  simp [registerServiceHandler, postRegister, registerService, rdbSet, scheduleHealthCheck, hd,
    registered, stored]

theorem register_bad_interval (w : World) (R : Service)
    (hd : parseDuration R.HealthCheck.Interval = none) :
    registerServiceHandler w true (postRegister R) =
      Outcome.fatal (stored w R) := by
  simp [registerServiceHandler, postRegister, registerService, rdbSet, scheduleHealthCheck, hd,
    Fatal, stored]

theorem register_down (w : World) (R : Service) :
    registerServiceHandler w false (postRegister R) = Outcome.fatal w := by
  simp [registerServiceHandler, postRegister, registerService, rdbSet, Fatal]

theorem register_ok_inv (w w' : World) (up : Bool) (r : Request) (R : Service) (resp : Response)
    (hb : r.Body = some R) (h : registerServiceHandler w up r = Outcome.ok resp w')
    (h200 : resp.StatusCode = 200) :
    ∃ d, parseDuration R.HealthCheck.Interval = some d ∧ w' = registered w R d := by
  unfold registerServiceHandler at h
  split_ifs at h with hm
  · simp only [Outcome.ok.injEq] at h
    rw [← h.1] at h200
    simp [httpError] at h200
  · rw [hb] at h
    cases up with
    | false => simp [registerService, rdbSet, Fatal] at h
    | true =>
      cases hd : parseDuration R.HealthCheck.Interval with
      | none => simp [registerService, rdbSet, scheduleHealthCheck, hd, Fatal] at h
      | some d =>
        refine ⟨d, rfl, ?_⟩
        simp [registerService, rdbSet, scheduleHealthCheck, hd] at h
        rw [← h.2]
        rfl

theorem lookup_registered (w : World) (R : Service) (d : Int) (q : Request)
    (hq : q.Path = "/service/" ++ R.ID) :
    getServiceHandler (registered w R d) true q =
      Outcome.ok { StatusCode := 200, ContentType := some "application/json",
                   Body := jsonMarshal R } (registered w R d) := by
  simp [getServiceHandler, hq, servicePath_id, rdbGet, registered, stored]

theorem tasksFor_append (id : String) (c1 c2 : List Entry) :
    tasksFor id (c1 ++ c2) = tasksFor id c1 + tasksFor id c2 := by
  simp [tasksFor, List.filter_append]

theorem registerAll_tasks (id : String) (rs : List (Bool × Service)) (w w' : World)
    (h : registerAll w rs = Outcome.ok () w') :
    tasksFor id w'.c = tasksFor id w.c + (rs.filter (fun p => p.2.ID = id)).length := by
  induction rs generalizing w with
  | nil =>
    simp only [registerAll, Outcome.ok.injEq, true_and] at h
    subst h
    simp
  | cons p rs ih =>
    obtain ⟨up, R⟩ := p
    simp only [registerAll] at h
    cases hr : registerServiceHandler w up (postRegister R) with
    | fatal w1 => simp [hr] at h
    | ok resp w1 =>
      simp only [hr] at h
      cases up with
      | false => simp [register_down] at hr
      | true =>
        cases hd : parseDuration R.HealthCheck.Interval with
        | none => simp [register_bad_interval _ _ hd] at hr
        | some d =>
          rw [register_ok _ _ _ hd] at hr
          simp only [Outcome.ok.injEq] at hr
          rw [ih w1 h, ← hr.2]
          simp only [registered, tasksFor_append, tasksFor, List.filter_cons, List.filter_nil]
          by_cases hid : R.ID = id
          · simp [hid]
            omega
          · simp [hid]

theorem lookup_replace_ne (fs : List (String × String)) (field value f : String)
    (hf : f ≠ field) :
    (fs.map (fun p => if p.1 = field then (field, value) else p)).lookup f = fs.lookup f := by
  induction fs with
  | nil => rfl
  | cons p fs ih =>
    obtain ⟨a, b⟩ := p
    have h1 : (f == field) = false := by simpa using hf
    by_cases ha : a = field
    · subst ha
      rw [List.map_cons, if_pos rfl, List.lookup_cons, List.lookup_cons, h1, ih]
    · rw [List.map_cons, if_neg ha, List.lookup_cons, List.lookup_cons, ih]

theorem lookup_snoc_ne (fs : List (String × String)) (field value f : String)
    (hf : f ≠ field) : (fs ++ [(field, value)]).lookup f = fs.lookup f := by
  induction fs with
  | nil =>
    have h1 : (f == field) = false := by simpa using hf
    rw [List.nil_append, List.lookup_cons, h1]
  | cons p fs ih =>
    obtain ⟨a, b⟩ := p
    rw [List.cons_append, List.lookup_cons, List.lookup_cons, ih]

theorem hashSet_lookup_ne (fs : List (String × String)) (field value f : String)
    (hf : f ≠ field) : (hashSet fs field value).lookup f = fs.lookup f := by
  unfold hashSet
  split_ifs with h
  · exact lookup_replace_ne fs field value f hf
  · exact lookup_snoc_ne fs field value f hf

theorem rdbHSet_other (db : Keyspace) (up : Bool) (key field value k : String) (hk : k ≠ key) :
    (rdbHSet db up key field value).2 k = db k := by
  unfold rdbHSet
  cases up with
  | false => rfl
  | true =>
    cases h : db key with
    | none => simp [hk]
    | some v =>
      cases v with
      | str data => simp
      | hash fs => simp [hk]

theorem rdbHSet_str (db : Keyspace) (up : Bool) (key field value data : String)
    (h : db key = some (RedisValue.str data)) :
    rdbHSet db up key field value =
      (some (if up then RedisErr.WrongType else RedisErr.Unavailable), db) := by
  unfold rdbHSet
  cases up <;> simp [h]

theorem rdbSet_other (db : Keyspace) (up : Bool) (key value k : String) (hk : k ≠ key) :
    (rdbSet db up key value).2 k = db k := by
  unfold rdbSet
  cases up <;> simp [hk]

theorem register_world_other (w : World) (up : Bool) (r : Request) (R : Service) (k : String)
    (hb : r.Body = some R) (hk : k ≠ "service:" ++ R.ID) :
    (registerServiceHandler w up r).world.rdb k = w.rdb k := by
  unfold registerServiceHandler
  split_ifs with hm
  · rfl
  · rw [hb]
    cases up with
    | false => simp [registerService, rdbSet, Fatal, Outcome.world]
    | true =>
      cases hd : parseDuration R.HealthCheck.Interval <;>
        simp [registerService, rdbSet, scheduleHealthCheck, hd, Fatal, Outcome.world, hk]

theorem register_400_iff (w : World) (up : Bool) (r : Request) :
    (registerServiceHandler w up r).value.map Response.StatusCode = some 400 ↔
      (r.Method = "POST" ∧ r.Body = none) := by
  unfold registerServiceHandler
  split_ifs with hm
  · simp [Outcome.value, httpError, hm]
  · have hm' : r.Method = "POST" := by simpa using hm
    cases hb : r.Body with
    | none => simp [Outcome.value, httpError, hm']
    | some R =>
      cases up with
      | false => simp [registerService, rdbSet, Fatal, Outcome.value]
      | true =>
        cases hd : parseDuration R.HealthCheck.Interval <;>
          simp [registerService, rdbSet, scheduleHealthCheck, hd, Fatal, Outcome.value]

/-! ## The claims -/

/-- C1. Round trip with last-write-wins: from every state `w` (whatever the
store held under the id before, in particular an earlier registration of the
same id), once `POST /register` with a body decoding to `R` has answered 200, a
lookup of `/service/` + `R.ID` that reaches the store answers 200 with the
bytes of `json.Marshal(R)`, and these decode to exactly `R`. -/
theorem register_then_lookup (w w' : World) (up : Bool) (r q : Request) (R : Service)
    (resp : Response) (hbody : r.Body = some R)
    (hreg : registerServiceHandler w up r = Outcome.ok resp w') (hok : resp.StatusCode = 200)
    (hq : q.Path = "/service/" ++ R.ID) :
    getServiceHandler w' true q =
        Outcome.ok { StatusCode := 200, ContentType := some "application/json",
                     Body := jsonMarshal R } w' ∧
      jsonUnmarshal (jsonMarshal R) = some R := by
  obtain ⟨d, _, hw⟩ := register_ok_inv w w' up r R resp hbody hreg hok
  subst hw
  exact ⟨lookup_registered w R d q hq, jsonUnmarshal_jsonMarshal R⟩

/-- Witness of C1: `svc-1` registered with interval `2s`, then registered again
with interval `10s`; the lookup returns the second record. -/
theorem register_then_lookup_witness :
    getServiceHandler (registered (registered startWorld svc1 2000000000) svc1b 10000000000) true
        (getService "svc-1") =
        Outcome.ok { StatusCode := 200, ContentType := some "application/json",
                     Body := jsonMarshal svc1b }
          (registered (registered startWorld svc1 2000000000) svc1b 10000000000) ∧
      jsonUnmarshal (jsonMarshal svc1b) = some svc1b :=
  register_then_lookup (registered startWorld svc1 2000000000)
    (registered (registered startWorld svc1 2000000000) svc1b 10000000000) true
    (postRegister svc1b) (getService "svc-1") svc1b
    { StatusCode := 200, ContentType := none, Body := "" } rfl (by rfl) rfl rfl

/-- C2, counterexample. `svc-1` registered with interval `2s` and again with
interval `10s`: both requests are served, and the scheduler then holds two
entries probing `svc-1`, one every 2 s and one every 10 s. -/
theorem two_tasks_after_reregistration :
    (registerAll startWorld [(true, svc1), (true, svc1b)]).value = some () ∧
      tasksFor "svc-1" (registerAll startWorld [(true, svc1), (true, svc1b)]).world.c = 2 ∧
      (registerAll startWorld [(true, svc1), (true, svc1b)]).world.c.map Entry.Delay =
        [2000000000, 10000000000] := by
  refine ⟨by rfl, by decide, by rfl⟩

/-- C2, amended. Every served registration adds one scheduler entry and removes
none: after a sequence of `POST /register` requests that were all served, the
number of entries probing an id is the number before plus the number of
requests of the sequence that carried this id. -/
theorem tasks_count_registrations (id : String) (rs : List (Bool × Service)) (w w' : World)
    (h : registerAll w rs = Outcome.ok () w') :
    tasksFor id w'.c = tasksFor id w.c + (rs.filter (fun p => p.2.ID = id)).length :=
  registerAll_tasks id rs w w' h

/-- Witness of C2 amended: the two registrations of `svc-1`. -/
theorem tasks_count_registrations_witness :
    registerAll startWorld [(true, svc1), (true, svc1b)] =
        Outcome.ok () (registered (registered startWorld svc1 2000000000) svc1b 10000000000) ∧
      tasksFor "svc-1" (registered (registered startWorld svc1 2000000000) svc1b 10000000000).c =
        tasksFor "svc-1" startWorld.c +
          ([(true, svc1), (true, svc1b)].filter (fun p => p.2.ID = "svc-1")).length :=
  ⟨by rfl, tasks_count_registrations "svc-1" [(true, svc1), (true, svc1b)] startWorld _ (by rfl)⟩

/-- C3, the code at the failing input. `svc-1` is registered, then one tick
for it runs with the probe answering 200 OK and the store reachable.  The
`HSET` of the tick is refused with `WRONGTYPE` (the key holds the string that
`SET` wrote), no status is stored under the key, and the lookup answers the
record as registered, without any status. -/
theorem tick_status_not_in_lookup :
    (rdbHSet (registerServiceHandler startWorld true (postRegister svc1)).world.rdb true
        "service:svc-1" "status" "healthy").1 = some RedisErr.WrongType ∧
      statusOf ((monitorService (registerServiceHandler startWorld true (postRegister svc1)).world
        (fun _ => GetResult.response 200) true svc1).world.rdb "service:svc-1") = none ∧
      (getServiceHandler
        (monitorService (registerServiceHandler startWorld true (postRegister svc1)).world
          (fun _ => GetResult.response 200) true svc1).world true (getService "svc-1")).value =
        some { StatusCode := 200, ContentType := some "application/json",
               Body := "\x7b\"id\":\"svc-1\",\"name\":\"svc\",\"address\":\"10.0.0.5\"," ++
                 "\"port\":8080,\"healthCheck\":\x7b\"endpoint\":\"/health\"," ++
                 "\"interval\":\"2s\",\"timeout\":\"500ms\"\x7d\x7d" } := by
  refine ⟨by rfl, by rfl, by rfl⟩

/-- C4. Probe classification is total and exact: the status `monitorService`
computes is `healthy` exactly when the request returned a response (no error)
with status code 200, and `unhealthy` for every other result; whatever the
result of the request and of the store write, `monitorService` returns, and the
status it hands to `HSET` is this one. -/
theorem probe_classification (w : World) (net : ProbeRequest → GetResult) (up : Bool)
    (service : Service) (res : GetResult) :
    (probeStatus res = "healthy" ↔ res = GetResult.response 200) ∧
      (res ≠ GetResult.response 200 ↔ probeStatus res = "unhealthy") ∧
      (∀ err, probeStatus (GetResult.failed err) = "unhealthy") ∧
      monitorService w net up service =
        Outcome.ok () { w with rdb := (rdbHSet w.rdb up ("service:" ++ service.ID) "status"
          (probeStatus (net (probeRequest service)))).2 } := by
  refine ⟨?_, ?_, fun _ => rfl, rfl⟩
  · cases res with
    | failed err => simp [probeStatus]
    | response code =>
      by_cases hc : code = 200
      · simp [probeStatus, hc]
      · simp [probeStatus, hc]
  · cases res with
    | failed err => simp [probeStatus]
    | response code =>
      by_cases hc : code = 200
      · simp [probeStatus, hc]
      · simp [probeStatus, hc]

/-- C5, counterexample. A decoded record without id, address, port and endpoint
is answered 200, stored under the key `service:` and scheduled; a record whose
interval is `soon` gets no answer at all, and is in the store when
`scheduleHealthCheck` ends the process. -/
theorem register_accepts_incomplete_record :
    (registerServiceHandler startWorld true (postRegister svcEmpty)).value =
        some { StatusCode := 200, ContentType := none, Body := "" } ∧
      startWorld.rdb "service:" = none ∧
      (registerServiceHandler startWorld true (postRegister svcEmpty)).world.rdb "service:" =
        some (RedisValue.str (jsonMarshal svcEmpty)) ∧
      (registerServiceHandler startWorld true (postRegister svcEmpty)).world.c =
        [{ Delay := 2000000000, Job := svcEmpty }] ∧
      parseDuration svcSoon.HealthCheck.Interval = none ∧
      (registerServiceHandler startWorld true (postRegister svcSoon)).value = none ∧
      (registerServiceHandler startWorld true (postRegister svcSoon)).world.rdb "service:svc-1" =
        some (RedisValue.str (jsonMarshal svcSoon)) := by
  refine ⟨by rfl, by rfl, by rfl, by rfl, by decide, by rfl, by rfl⟩

/-- C5, amended. Register validates nothing beyond decoding: it answers 400
exactly when the method is POST and the body fails to decode.  For every
decoded record, whatever its id, address, port and endpoint, and the store
reachable: if the interval parses, the record is stored, one entry is
scheduled and the answer is 200; if it does not parse, the record is stored
first and `scheduleHealthCheck` then ends in `common.Fatal`, without an
answer. -/
theorem register_validates_nothing (w : World) (up : Bool) (r : Request) (R : Service) :
    ((registerServiceHandler w up r).value.map Response.StatusCode = some 400 ↔
        (r.Method = "POST" ∧ r.Body = none)) ∧
      registerServiceHandler w true (postRegister R) =
        match parseDuration R.HealthCheck.Interval with
        | some d => Outcome.ok { StatusCode := 200, ContentType := none, Body := "" }
            (registered w R d)
        | none => Outcome.fatal (stored w R) := by
  refine ⟨register_400_iff w up r, ?_⟩
  cases hd : parseDuration R.HealthCheck.Interval with
  | none => exact register_bad_interval w R hd
  | some d => exact register_ok w R d hd

set_option maxRecDepth 20000 in
/-- C6, counterexample. `svc-1` is registered in the empty store and looked up
at once: the answer is 200 with the record as sent, and the text `unknown`
occurs nowhere in the body. -/
theorem lookup_after_register_has_no_unknown :
    (getServiceHandler (registerServiceHandler startWorld true (postRegister svc1)).world true
        (getService "svc-1")).value =
        some { StatusCode := 200, ContentType := some "application/json",
               Body := jsonMarshal svc1 } ∧
      ¬("unknown".data <:+: (jsonMarshal svc1).data) := by
  refine ⟨by rfl, by decide⟩

/-- C6, amended. For every record `R` and every prior state, once
`POST /register` of `R` has answered 200, a lookup of `R.ID` that reaches the
store reports the fields of `R` and no status: the body is `json.Marshal(R)`,
which reads back as exactly the members id, name, address, port and
healthCheck of `R`; the key holds this string and no `status` field, also when
it held a hash with a probed status before. -/
theorem lookup_after_register_fields_only (w w' : World) (up : Bool) (r q : Request)
    (R : Service) (resp : Response) (hbody : r.Body = some R)
    (hreg : registerServiceHandler w up r = Outcome.ok resp w') (hok : resp.StatusCode = 200)
    (hq : q.Path = "/service/" ++ R.ID) :
    (getServiceHandler w' true q).value =
        some { StatusCode := 200, ContentType := some "application/json",
               Body := jsonMarshal R } ∧
      decodeService (jsonMarshal R).data = some R ∧
      w'.rdb ("service:" ++ R.ID) = some (RedisValue.str (jsonMarshal R)) ∧
      statusOf (w'.rdb ("service:" ++ R.ID)) = none := by
  obtain ⟨d, _, hw⟩ := register_ok_inv w w' up r R resp hbody hreg hok
  subst hw
  refine ⟨?_, decodeService_encodeService R, ?_, ?_⟩
  · rw [lookup_registered w R d q hq]
    rfl
  · simp [registered, stored]
  · simp [registered, stored, statusOf]

/-- Witness of C6 amended: `svc-1` registered over a key that held a hash with
status `healthy`. -/
theorem lookup_after_register_fields_only_witness :
    statusOf (probedWorld.rdb "service:svc-1") = some "healthy" ∧
      ((getServiceHandler (registered probedWorld svc1 2000000000) true (getService "svc-1")).value =
          some { StatusCode := 200, ContentType := some "application/json",
                 Body := jsonMarshal svc1 } ∧
        decodeService (jsonMarshal svc1).data = some svc1 ∧
        (registered probedWorld svc1 2000000000).rdb ("service:" ++ svc1.ID) =
          some (RedisValue.str (jsonMarshal svc1)) ∧
        statusOf ((registered probedWorld svc1 2000000000).rdb ("service:" ++ svc1.ID)) = none) :=
  ⟨by rfl, lookup_after_register_fields_only probedWorld (registered probedWorld svc1 2000000000)
    true (postRegister svc1) (getService "svc-1") svc1
    { StatusCode := 200, ContentType := none, Body := "" } rfl (by rfl) rfl rfl⟩

/-- C7. Absent keys give not-found: when no value is stored under
`"service:" + id` and the lookup reaches the store, `getServiceHandler` answers
404; when `name` is not a key of `externalServices`, `getConfigHandler` answers
404; both leave the store, the configuration and the scheduler entries as they
were. -/
theorem absent_gives_not_found (w : World) (q q2 : Request) (id name : String)
    (hq : q.Path = "/service/" ++ id) (habs : w.rdb ("service:" ++ id) = none)
    (hq2 : q2.Path = "/config/" ++ name)
    (hname : name ∉ w.configData.ExternalServices.map Prod.fst) :
    getServiceHandler w true q = Outcome.ok (httpError "Service not found" 404) w ∧
      getConfigHandler w q2 = Outcome.ok (httpError "Configuration not found" 404) w ∧
      (httpError "Service not found" 404).StatusCode = 404 ∧
      (httpError "Configuration not found" 404).StatusCode = 404 := by
  refine ⟨?_, ?_, rfl, rfl⟩
  · simp [getServiceHandler, hq, servicePath_id, rdbGet, habs]
  · have hl : w.configData.ExternalServices.lookup name = none := by
      rw [List.lookup_eq_none_iff]
      intro p hp
      have hne : name ≠ p.1 := by
        intro he
        exact hname (List.mem_map.2 ⟨p, hp, he.symm⟩)
      simpa using hne
    simp [getConfigHandler, hq2, configPath_name, hl]

/-- Witness of C7: the start state, where `svc-1` is not registered and
`postgres` is not configured. -/
theorem absent_gives_not_found_witness :
    getServiceHandler startWorld true (getService "svc-1") =
        Outcome.ok (httpError "Service not found" 404) startWorld ∧
      getConfigHandler startWorld (getConfig "postgres") =
        Outcome.ok (httpError "Configuration not found" 404) startWorld ∧
      (httpError "Service not found" 404).StatusCode = 404 ∧
      (httpError "Configuration not found" 404).StatusCode = 404 :=
  absent_gives_not_found startWorld (getService "svc-1") (getConfig "postgres") "svc-1" "postgres"
    rfl rfl rfl (by decide)

/-- C8, the code at the failing input. `POST /register` of `svc-1` while the
store cannot be reached: `registerService` hands the error of the write to
`common.Fatal`, so the handler writes no response (no 500) and the call ends
the process; nothing is stored and nothing is scheduled.  The lookup handler
of the same file, on the same failure of the store, answers 500 and returns
with the state as it was. -/
theorem register_store_failure_is_fatal :
    (registerServiceHandler startWorld false (postRegister svc1)).value = none ∧
      (registerServiceHandler startWorld false (postRegister svc1)).world.c = [] ∧
      (registerServiceHandler startWorld false (postRegister svc1)).world.rdb "service:svc-1" =
        none ∧
      (getServiceHandler startWorld false (getService "svc-1")).value =
        some (httpError "Internal server error" 500) ∧
      (httpError "Internal server error" 500).StatusCode = 500 ∧
      (getServiceHandler startWorld false (getService "svc-1")).world.c = startWorld.c := by
  refine ⟨by rfl, by rfl, by rfl, by rfl, by rfl, by rfl⟩

/-- C9. Per-id write isolation: for a record `S` and an id `Y` other than
`S.ID`, the keys `"service:" + S.ID` and `"service:" + Y` differ, and neither
`POST /register` of `S` nor a tick for `S` changes what the store holds under
`"service:" + Y` (nor under any key but that of `S`); a tick for `S` leaves a
stored record of `S` (the string under its key) as it is, and of a hash under
the key it changes no field but `status`. -/
theorem write_isolation (w : World) (up : Bool) (net : ProbeRequest → GetResult) (r : Request)
    (S : Service) (Y : String) (hb : r.Body = some S) (hY : S.ID ≠ Y) :
    "service:" ++ S.ID ≠ "service:" ++ Y ∧
      (registerServiceHandler w up r).world.rdb ("service:" ++ Y) = w.rdb ("service:" ++ Y) ∧
      (monitorService w net up S).world.rdb ("service:" ++ Y) = w.rdb ("service:" ++ Y) ∧
      (∀ k, k ≠ "service:" ++ S.ID →
        (registerServiceHandler w up r).world.rdb k = w.rdb k ∧
          (monitorService w net up S).world.rdb k = w.rdb k) ∧
      (∀ data, w.rdb ("service:" ++ S.ID) = some (RedisValue.str data) →
        (monitorService w net up S).world.rdb ("service:" ++ S.ID) =
          some (RedisValue.str data)) ∧
      (∀ fs, w.rdb ("service:" ++ S.ID) = some (RedisValue.hash fs) →
        ∃ fs2, (monitorService w net up S).world.rdb ("service:" ++ S.ID) =
            some (RedisValue.hash fs2) ∧
          ∀ f, f ≠ "status" → fs2.lookup f = fs.lookup f) := by
  have hk : "service:" ++ Y ≠ "service:" ++ S.ID := fun h => hY (serviceKey_inj _ _ h).symm
  refine ⟨fun h => hk h.symm, register_world_other w up r S _ hb hk, ?_, ?_, ?_, ?_⟩
  · exact rdbHSet_other w.rdb up _ _ _ _ hk
  · intro k hkk
    exact ⟨register_world_other w up r S k hb hkk, rdbHSet_other w.rdb up _ _ _ _ hkk⟩
  · intro data hdata
    simp only [monitorService, Outcome.world]
    rw [rdbHSet_str _ _ _ _ _ _ hdata]
    exact hdata
  · intro fs hfs
    cases up with
    | false => exact ⟨fs, by simp [monitorService, Outcome.world, rdbHSet, hfs], fun _ _ => rfl⟩
    | true =>
      refine ⟨hashSet fs "status" (probeStatus (net (probeRequest S))), ?_, ?_⟩
      · simp [monitorService, Outcome.world, rdbHSet, hfs]
      · intro f hf
        exact hashSet_lookup_ne fs _ _ f hf

/-- Witness of C9: in a store that holds the records of `svc-1` and `svc-2`,
`svc-1` is registered again and probed while the key of `svc-2` is looked at. -/
theorem write_isolation_witness :
    "service:" ++ svc1b.ID ≠ "service:" ++ "svc-2" ∧
      (registerServiceHandler busyWorld true (postRegister svc1b)).world.rdb
          ("service:" ++ "svc-2") = busyWorld.rdb ("service:" ++ "svc-2") ∧
      (monitorService busyWorld (fun _ => GetResult.response 200) true svc1b).world.rdb
          ("service:" ++ "svc-2") = busyWorld.rdb ("service:" ++ "svc-2") ∧
      (∀ k, k ≠ "service:" ++ svc1b.ID →
        (registerServiceHandler busyWorld true (postRegister svc1b)).world.rdb k =
            busyWorld.rdb k ∧
          (monitorService busyWorld (fun _ => GetResult.response 200) true svc1b).world.rdb k =
            busyWorld.rdb k) ∧
      (∀ data, busyWorld.rdb ("service:" ++ svc1b.ID) = some (RedisValue.str data) →
        (monitorService busyWorld (fun _ => GetResult.response 200) true svc1b).world.rdb
          ("service:" ++ svc1b.ID) = some (RedisValue.str data)) ∧
      (∀ fs, busyWorld.rdb ("service:" ++ svc1b.ID) = some (RedisValue.hash fs) →
        ∃ fs2, (monitorService busyWorld (fun _ => GetResult.response 200) true svc1b).world.rdb
            ("service:" ++ svc1b.ID) = some (RedisValue.hash fs2) ∧
          ∀ f, f ≠ "status" → fs2.lookup f = fs.lookup f) :=
  write_isolation busyWorld true (fun _ => GetResult.response 200) (postRegister svc1b) svc1b
    "svc-2" rfl (by decide)

/-- C10, the code at the failing input. The record `svc-1` carries the timeout
`500ms`, which parses to 500000000 ns; the request its tick sends goes to
`http://10.0.0.5:8080/health` with the client timeout zero (no timeout), and a
record that differs only in its timeout sends the same request. -/
theorem probe_ignores_timeout :
    parseDuration svc1.HealthCheck.Timeout = some 500000000 ∧
      probeRequest svc1 = { URL := "http://10.0.0.5:8080/health", Timeout := 0 } ∧
      probeRequest svc1Slow = probeRequest svc1 := by
  refine ⟨by decide, by rfl, by rfl⟩

end Registry
